import Mathlib

/-!
Verification of the PMAC plasma-simulation repository (`src/simulation.py`).

The program is a fixed-step time loop over closed-form real-valued updates.
We embed it shallowly: the module-level constants become real constants, the
pure methods of `YBCO_Coils`, `MHD_Plasma` and `PMAC_Controller` become real
functions, and the arrays filled by `IRON_MAN_PMAC.run_simulation` become
series indexed by the grid index.  The controller's random sensor draws are
an explicit input `draws : ℕ → Fin 64 → ℝ` giving the vector drawn at each
grid index where the controller fires.  Python floats are idealised as real
numbers; fallible array accesses in `calculate_metrics` are modelled with
`Option`.
-/

namespace PMAC

noncomputable section

/-! ### Constants (`simulation.py` lines 8-18) -/

def MU_0 : ℝ := 4 * Real.pi * 1e-7

def ALPHA_YBCO : ℝ := 0.023

def B_MAX : ℝ := 2.0

def T_WINDOW : ℝ := 0.180

def N_E0 : ℝ := 1e16

def CEP_TARGET : ℝ := 0.13

def COIL_RAMP_TIME : ℝ := 0.026

def COIL_POWER : ℝ := 120e3

def CONTROL_LOOP : ℝ := 0.019

/-- The fixed time step `self.dt = 1e-4` set in `IRON_MAN_PMAC.__init__`. -/
def dt : ℝ := 1e-4

/-! ### `YBCO_Coils` -/

/-- Embeds `YBCO_Coils.ramp_field`:
`B_MAX*(t/COIL_RAMP_TIME) if t < COIL_RAMP_TIME else B_MAX`. -/
def ramp_field (t : ℝ) : ℝ :=
  if t < COIL_RAMP_TIME then B_MAX * (t / COIL_RAMP_TIME) else B_MAX

/-- Embeds `YBCO_Coils.power_consumption`: `COIL_POWER*(B/B_MAX)**2` where
`B = self.ramp_field(t)`. -/
def power_consumption (t : ℝ) : ℝ :=
  COIL_POWER * (ramp_field t / B_MAX) ^ 2

/-! ### `MHD_Plasma` -/

/-- Embeds `MHD_Plasma.density_reduction`:
`reduction_factor = 1 - exp(-ALPHA_YBCO*B_field**2*T_WINDOW/MU_0)`;
returns `n_e_prev*(1 - reduction_factor)`. -/
def density_reduction (n_e_prev B_fld : ℝ) : ℝ :=
  n_e_prev * (1 - (1 - Real.exp (-ALPHA_YBCO * B_fld ^ 2 * T_WINDOW / MU_0)))

/-! ### `PMAC_Controller` -/

/-- Mean (`np.mean`) of a 64-sample sensor vector. -/
def sensor_mean (sensors : Fin 64 → ℝ) : ℝ :=
  (∑ j, sensors j) / 64

/-- Embeds `np.clip(x, 0, 1)`. -/
def clip01 (x : ℝ) : ℝ := min (max x 0) 1

/-- Embeds `PMAC_Controller.ai_decision`: `error = (N_E0 - mean(sensors))/N_E0`;
returns `np.clip(error*1.2, 0, 1)`. -/
def ai_decision (sensors : Fin 64 → ℝ) : ℝ :=
  clip01 ((N_E0 - sensor_mean sensors) / N_E0 * 1.2)

/-! ### `IRON_MAN_PMAC` time grid -/

/-- Sample instant of grid index `i`: `np.arange(0, sim_time, dt)` yields
`i * dt`. -/
def tGrid (i : ℕ) : ℝ := i * dt

/-- Length of `np.arange(0, sim_time, dt)`: `⌈sim_time / dt⌉` clamped at 0. -/
def numSteps (sim_time : ℝ) : ℕ := ⌈sim_time / dt⌉₊

/-- Python's float modulus `x % y` for positive `y` (floor-based). -/
def fmod (x y : ℝ) : ℝ := x - y * (⌊x / y⌋ : ℤ)

/-! ### `IRON_MAN_PMAC.run_simulation` per-step series -/

/-- Line 62-65: `B_field[i] = ramp_field(t % T_WINDOW)` when
`t % T_WINDOW < dt`, else `ramp_field(T_WINDOW)`. -/
def B_field (i : ℕ) : ℝ :=
  if fmod (tGrid i) T_WINDOW < dt then ramp_field (fmod (tGrid i) T_WINDOW)
  else ramp_field T_WINDOW

/-- Line 67: the cadence divisor `int(CONTROL_LOOP/self.dt)`. -/
def ctrlStride : ℕ := (⌊CONTROL_LOOP / dt⌋).toNat

/-- Lines 67-69: `ai_command` is written only at indices with
`i % ctrlStride == 0`; the array is initialised to zero elsewhere. -/
def ai_command (draws : ℕ → Fin 64 → ℝ) (i : ℕ) : ℝ :=
  if i % ctrlStride = 0 then ai_decision (draws i) else 0

/-- Lines 54, 71-72: `n_e` initialised to `N_E0`; for `i > 0`,
`n_e[i] = density_reduction(n_e[i-1], B_field[i])`. -/
def n_e : ℕ → ℝ
  | 0 => N_E0
  | i + 1 => density_reduction (n_e i) (B_field (i + 1))

/-- Line 74: `power[i] = power_consumption(t)` at absolute time `t`. -/
def power (i : ℕ) : ℝ := power_consumption (tGrid i)

/-- Line 75: `reduction = (1 - n_e[i]/N_E0)*100`. -/
def reduction_pct (i : ℕ) : ℝ := (1 - n_e i / N_E0) * 100

/-- Line 76: `guidance_clear[i] = 1 if reduction >= 68 else 0`. -/
def guidance_clear (i : ℕ) : ℝ :=
  if 68 ≤ reduction_pct i then 1 else 0

/-- Line 77: `blackout[i] = 1 - guidance_clear[i]`. -/
def blackout (i : ℕ) : ℝ := 1 - guidance_clear i

/-- The output series of one run, as produced by `run_simulation` for a
given source of sensor draws. -/
structure SimOutput where
  B_field : ℕ → ℝ
  n_e : ℕ → ℝ
  power : ℕ → ℝ
  guidance_clear : ℕ → ℝ
  blackout : ℕ → ℝ
  ai_command : ℕ → ℝ

/-- Embeds `IRON_MAN_PMAC.run_simulation`: fills the six series. -/
def run_simulation (draws : ℕ → Fin 64 → ℝ) : SimOutput where
  B_field := B_field
  n_e := n_e
  power := power
  guidance_clear := guidance_clear
  blackout := blackout
  ai_command := ai_command draws

/-! ### `IRON_MAN_PMAC.calculate_metrics` -/

structure Metrics where
  n_e_reduction : ℝ
  guidance_clear_pct : ℝ
  blackout_time : ℝ
  peak_power : ℝ
  cep : ℝ

/-- Embeds `IRON_MAN_PMAC.calculate_metrics` over the series of a run with grid
length `N = numSteps sim_time`.  `self.n_e[-1]` and `self.power.max()`
require a non-empty grid; on an empty grid the Python code raises, which we
model as `none`. -/
def calculate_metrics (sim_time : ℝ) (o : SimOutput) : Option Metrics :=
  let N := numSteps sim_time
  if h : 0 < N then
    let clear_time : ℝ := (∑ i ∈ Finset.range N, o.guidance_clear i) * dt
    some
      { n_e_reduction := (1 - o.n_e (N - 1) / N_E0) * 100
        guidance_clear_pct := clear_time / sim_time * 100
        blackout_time := sim_time - clear_time
        peak_power := (Finset.range N).sup' (Finset.nonempty_range_iff.mpr h.ne') o.power
        cep := CEP_TARGET }
  else none

/-- Number of grid samples at which `guidance_clear` is 1 (the spec's
"count of samples with `guidance_clear == 1`"). -/
def clearCount (N : ℕ) : ℕ :=
  ((Finset.range N).filter fun i => guidance_clear i = 1).card

/-! ### Helper lemmas -/

lemma MU_0_pos : 0 < MU_0 := by
  unfold MU_0
  have h : (0 : ℝ) < Real.pi := Real.pi_pos
  nlinarith

lemma decay_exponent_nonneg (B : ℝ) : 0 ≤ ALPHA_YBCO * B ^ 2 * T_WINDOW / MU_0 :=
  div_nonneg
    (mul_nonneg (mul_nonneg (by norm_num [ALPHA_YBCO]) (sq_nonneg B))
      (by norm_num [T_WINDOW]))
    MU_0_pos.le

lemma density_reduction_eq (p B : ℝ) :
    density_reduction p B = p * Real.exp (-ALPHA_YBCO * B ^ 2 * T_WINDOW / MU_0) := by
  unfold density_reduction
  ring

lemma decay_factor_le_one (B : ℝ) :
    Real.exp (-ALPHA_YBCO * B ^ 2 * T_WINDOW / MU_0) ≤ 1 := by
  rw [Real.exp_le_one_iff, show -ALPHA_YBCO * B ^ 2 * T_WINDOW / MU_0 =
    -(ALPHA_YBCO * B ^ 2 * T_WINDOW / MU_0) from by ring]
  exact neg_nonpos.mpr (decay_exponent_nonneg B)

lemma COIL_RAMP_TIME_pos : (0 : ℝ) < COIL_RAMP_TIME := by norm_num [COIL_RAMP_TIME]

lemma ramp_field_sat (t : ℝ) (h : COIL_RAMP_TIME ≤ t) : ramp_field t = B_MAX := by
  unfold ramp_field
  rw [if_neg (not_lt.mpr h)]

lemma ramp_field_nonneg (t : ℝ) (h : 0 ≤ t) : 0 ≤ ramp_field t := by
  unfold ramp_field
  split_ifs
  · exact mul_nonneg (by norm_num [B_MAX]) (div_nonneg h COIL_RAMP_TIME_pos.le)
  · norm_num [B_MAX]

lemma ramp_field_le_B_MAX (t : ℝ) : ramp_field t ≤ B_MAX := by
  unfold ramp_field
  split_ifs with h
  · calc B_MAX * (t / COIL_RAMP_TIME) ≤ B_MAX * 1 :=
        mul_le_mul_of_nonneg_left ((div_le_one COIL_RAMP_TIME_pos).mpr h.le)
          (by norm_num [B_MAX])
      _ = B_MAX := mul_one _
  · exact le_refl _

lemma ctrlStride_eq : ctrlStride = 190 := by
  unfold ctrlStride
  rw [show CONTROL_LOOP / dt = ((190 : ℤ) : ℝ) from by norm_num [CONTROL_LOOP, dt],
    Int.floor_intCast]
  rfl

lemma clip01_mem (x : ℝ) : 0 ≤ clip01 x ∧ clip01 x ≤ 1 :=
  ⟨le_min (le_max_right x 0) zero_le_one, min_le_right _ _⟩

lemma n_e_nonneg (i : ℕ) : 0 ≤ n_e i := by
  induction i with
  | zero => norm_num [n_e, N_E0]
  | succ j ih =>
    rw [show n_e (j + 1) = density_reduction (n_e j) (B_field (j + 1)) from rfl,
      density_reduction_eq]
    exact mul_nonneg ih (Real.exp_nonneg _)

lemma guidance_eq_one_iff (i : ℕ) : guidance_clear i = 1 ↔ 68 ≤ reduction_pct i := by
  unfold guidance_clear
  split_ifs with h
  · exact iff_of_true rfl h
  · exact iff_of_false (by norm_num) h

lemma sum_guidance_eq_clearCount (N : ℕ) :
    ∑ i ∈ Finset.range N, guidance_clear i = (clearCount N : ℝ) := by
  calc ∑ i ∈ Finset.range N, guidance_clear i
      = ∑ i ∈ Finset.range N, if 68 ≤ reduction_pct i then (1 : ℝ) else 0 :=
        Finset.sum_congr rfl fun i _ => rfl
    _ = (((Finset.range N).filter fun i => 68 ≤ reduction_pct i).card : ℝ) :=
        Finset.sum_boole _ _
    _ = (clearCount N : ℝ) := by
        unfold clearCount
        norm_cast
        exact congrArg Finset.card
          (Finset.filter_congr fun i _ => (guidance_eq_one_iff i).symm)

/-! ### Claim theorems -/

/-- Claim C1: the plasma-density series satisfies the exact recurrence:
`n_e[0] = N_E0`, and for `i > 0`,
`n_e[i] = n_e[i-1] * (1 - (1 - exp(-ALPHA_YBCO * B_field[i]^2 * T_WINDOW / MU_0)))`,
which equals `n_e[i-1] * exp(-ALPHA_YBCO * B_field[i]^2 * T_WINDOW / MU_0)`;
index `i` reads the density at `i-1` and the field at `i`. -/
theorem n_e_recurrence (i : ℕ) (h : 0 < i) :
    n_e 0 = N_E0 ∧
    n_e i = n_e (i - 1) *
      (1 - (1 - Real.exp (-ALPHA_YBCO * B_field i ^ 2 * T_WINDOW / MU_0))) ∧
    n_e i = n_e (i - 1) * Real.exp (-ALPHA_YBCO * B_field i ^ 2 * T_WINDOW / MU_0) := by
  obtain ⟨j, rfl⟩ : ∃ j, i = j + 1 := ⟨i - 1, (Nat.succ_pred_eq_of_pos h).symm⟩
  rw [Nat.add_sub_cancel]
  refine ⟨rfl, ?_, ?_⟩
  · rw [show n_e (j + 1) = density_reduction (n_e j) (B_field (j + 1)) from rfl]
    unfold density_reduction
    ring
  · rw [show n_e (j + 1) = density_reduction (n_e j) (B_field (j + 1)) from rfl,
      density_reduction_eq]

theorem n_e_recurrence_witness :
    n_e 1 = n_e 0 * Real.exp (-ALPHA_YBCO * B_field 1 ^ 2 * T_WINDOW / MU_0) :=
  (n_e_recurrence 1 (by decide)).2.2

/-- Claim C2: `ramp_field` is a linear ramp from 0 to `B_MAX` over
`[0, COIL_RAMP_TIME)` and is clamped to `B_MAX` for `t ≥ COIL_RAMP_TIME`;
in particular `ramp_field 0.013 = 1` and `ramp_field 0.1 = 2`. -/
theorem ramp_field_spec (t : ℝ) :
    (0 ≤ t → t < COIL_RAMP_TIME → ramp_field t = B_MAX * t / COIL_RAMP_TIME) ∧
    (COIL_RAMP_TIME ≤ t → ramp_field t = B_MAX) ∧
    ramp_field 0.013 = 1 ∧ ramp_field 0.1 = 2 := by
  refine ⟨fun h0 hlt => ?_, fun hge => ?_, ?_, ?_⟩
  · unfold ramp_field
    rw [if_pos hlt]
    ring
  · unfold ramp_field
    rw [if_neg (not_lt.mpr hge)]
  · unfold ramp_field
    rw [if_pos (by norm_num [COIL_RAMP_TIME])]
    norm_num [B_MAX, COIL_RAMP_TIME]
  · unfold ramp_field
    rw [if_neg (by norm_num [COIL_RAMP_TIME])]
    norm_num [B_MAX]

theorem ramp_field_spec_witness :
    ramp_field 0.013 = B_MAX * 0.013 / COIL_RAMP_TIME ∧ ramp_field 0.1 = B_MAX :=
  ⟨(ramp_field_spec 0.013).1 (by norm_num) (by norm_num [COIL_RAMP_TIME]),
    (ramp_field_spec 0.1).2.1 (by norm_num [COIL_RAMP_TIME])⟩

/-- Claim C3: at every grid step `i` with time `t = t_i`, the engine sets
`B_field[i] = ramp_field(t mod T_WINDOW)` when `t mod T_WINDOW < dt` (first
sample of a cycle window), and otherwise `B_field[i] = ramp_field(T_WINDOW)`,
which is the saturated value `B_MAX`. -/
theorem B_field_spec (i : ℕ) :
    (fmod (tGrid i) T_WINDOW < dt →
      B_field i = ramp_field (fmod (tGrid i) T_WINDOW)) ∧
    (dt ≤ fmod (tGrid i) T_WINDOW →
      B_field i = ramp_field T_WINDOW ∧ B_field i = B_MAX) := by
  constructor
  · intro h
    unfold B_field
    rw [if_pos h]
  · intro h
    unfold B_field
    rw [if_neg (not_lt.mpr h)]
    exact ⟨rfl, ramp_field_sat _ (by norm_num [COIL_RAMP_TIME, T_WINDOW])⟩

theorem B_field_spec_witness :
    (fmod (tGrid 0) T_WINDOW < dt ∧
      B_field 0 = ramp_field (fmod (tGrid 0) T_WINDOW)) ∧
    (dt ≤ fmod (tGrid 1) T_WINDOW ∧ B_field 1 = B_MAX) := by
  have h0 : fmod (tGrid 0) T_WINDOW < dt := by norm_num [fmod, tGrid, dt]
  have hfloor : ⌊tGrid 1 / T_WINDOW⌋ = 0 := by
    rw [Int.floor_eq_zero_iff]
    constructor
    · norm_num [tGrid, dt, T_WINDOW]
    · norm_num [tGrid, dt, T_WINDOW]
  have h1 : dt ≤ fmod (tGrid 1) T_WINDOW := by
    rw [fmod, hfloor]
    norm_num [tGrid]
  exact ⟨⟨h0, (B_field_spec 0).1 h0⟩, ⟨h1, ((B_field_spec 1).2 h1).2⟩⟩

/-- Claim C4: for every grid index `i`,
`power[i] = COIL_POWER * (ramp_field(t_i) / B_MAX)^2` at the absolute time
`t_i`; consequently `power[i] ∈ [0, COIL_POWER]`, and `power[i] = COIL_POWER`
whenever `t_i ≥ COIL_RAMP_TIME` — the power series only undergoes the
one-time initial ramp and never resets with the cycle window. -/
theorem power_spec (i : ℕ) :
    power i = COIL_POWER * (ramp_field (tGrid i) / B_MAX) ^ 2 ∧
    0 ≤ power i ∧ power i ≤ COIL_POWER ∧
    (COIL_RAMP_TIME ≤ tGrid i → power i = COIL_POWER) := by
  have ht : 0 ≤ tGrid i := mul_nonneg (Nat.cast_nonneg i) (by norm_num [dt])
  refine ⟨rfl, ?_, ?_, fun h => ?_⟩
  · exact mul_nonneg (by norm_num [COIL_POWER]) (sq_nonneg _)
  · unfold power power_consumption
    have h0 : 0 ≤ ramp_field (tGrid i) / B_MAX :=
      div_nonneg (ramp_field_nonneg _ ht) (by norm_num [B_MAX])
    have h1 : ramp_field (tGrid i) / B_MAX ≤ 1 := by
      rw [div_le_one (by norm_num [B_MAX])]
      exact ramp_field_le_B_MAX _
    calc COIL_POWER * (ramp_field (tGrid i) / B_MAX) ^ 2
        ≤ COIL_POWER * 1 := by
          refine mul_le_mul_of_nonneg_left ?_ (by norm_num [COIL_POWER])
          calc (ramp_field (tGrid i) / B_MAX) ^ 2 ≤ 1 ^ 2 := pow_le_pow_left₀ h0 h1 2
            _ = 1 := one_pow 2
      _ = COIL_POWER := mul_one _
  · unfold power power_consumption
    rw [ramp_field_sat _ h]
    norm_num [B_MAX, COIL_POWER]

theorem power_spec_witness : power 260 = COIL_POWER :=
  (power_spec 260).2.2.2 (by norm_num [tGrid, dt, COIL_RAMP_TIME])

/-- Claim C5: the controller fires exactly at indices with
`i % 190 == 0` where `190 = int(CONTROL_LOOP/dt) = round(CONTROL_LOOP/dt)`;
there `ai_command[i] = clip(1.2*(N_E0 - mean(sensors))/N_E0, 0, 1) ∈ [0,1]`,
and at every other index `ai_command[i] = 0` (no carry-forward). -/
theorem ai_command_spec (draws : ℕ → Fin 64 → ℝ) (i : ℕ) :
    ctrlStride = 190 ∧
    (i % ctrlStride = 0 →
      ai_command draws i = clip01 (1.2 * (N_E0 - sensor_mean (draws i)) / N_E0) ∧
      0 ≤ ai_command draws i ∧ ai_command draws i ≤ 1) ∧
    (i % ctrlStride ≠ 0 → ai_command draws i = 0) := by
  refine ⟨ctrlStride_eq, fun h => ?_, fun h => ?_⟩
  · have he : ai_command draws i = ai_decision (draws i) := by
      unfold ai_command
      rw [if_pos h]
    rw [he]
    unfold ai_decision
    refine ⟨?_, (clip01_mem _).1, (clip01_mem _).2⟩
    congr 1
    ring
  · unfold ai_command
    rw [if_neg h]

theorem ai_command_spec_witness :
    (0 ≤ ai_command (fun _ _ => 0) 0 ∧ ai_command (fun _ _ => 0) 0 ≤ 1) ∧
    ai_command (fun _ _ => 0) 1 = 0 :=
  ⟨⟨((ai_command_spec (fun _ _ => 0) 0).2.1 (by simp)).2.1,
    ((ai_command_spec (fun _ _ => 0) 0).2.1 (by simp)).2.2⟩,
    (ai_command_spec (fun _ _ => 0) 1).2.2 (by rw [ctrlStride_eq]; decide)⟩

/-- Claim C6: for every run, the density series is non-increasing:
`n_e[i] ≤ n_e[i-1]` for every `i > 0` (independently of `sim_time` and of
the sensor draws, which the density never reads). -/
theorem n_e_nonincreasing (i : ℕ) (h : 0 < i) : n_e i ≤ n_e (i - 1) := by
  obtain ⟨j, rfl⟩ : ∃ j, i = j + 1 := ⟨i - 1, (Nat.succ_pred_eq_of_pos h).symm⟩
  rw [Nat.add_sub_cancel]
  calc n_e (j + 1)
      = n_e j * Real.exp (-ALPHA_YBCO * B_field (j + 1) ^ 2 * T_WINDOW / MU_0) := by
        rw [show n_e (j + 1) = density_reduction (n_e j) (B_field (j + 1)) from rfl,
          density_reduction_eq]
    _ ≤ n_e j * 1 := mul_le_mul_of_nonneg_left (decay_factor_le_one _) (n_e_nonneg j)
    _ = n_e j := mul_one _

theorem n_e_nonincreasing_witness : n_e 1 ≤ n_e 0 :=
  n_e_nonincreasing 1 (by decide)

/-- Claim C7: at every index, `guidance_clear[i]` is 1 iff the reduction
percentage `(1 - n_e[i]/N_E0)*100` is at least 68 and 0 otherwise,
`blackout[i] = 1 - guidance_clear[i]`, and their sum is 1. -/
theorem guidance_blackout_spec (i : ℕ) :
    guidance_clear i = (if 68 ≤ (1 - n_e i / N_E0) * 100 then (1 : ℝ) else 0) ∧
    blackout i = 1 - guidance_clear i ∧
    guidance_clear i + blackout i = 1 :=
  ⟨rfl, rfl, by rw [blackout]; ring⟩

/-- Claim C8: `calculate_metrics` produces exactly: final reduction percentage
from the last density sample; clear-time = count of `guidance_clear == 1`
samples times `dt`; blackout-time = total duration minus clear-time;
clear-percentage = clear-time / total duration * 100; peak-power = maximum
of the power series; CEP = the fixed constant, passed through unchanged. -/
theorem calculate_metrics_spec (sim_time : ℝ) (draws : ℕ → Fin 64 → ℝ)
    (h : 0 < numSteps sim_time) :
    ∃ m, calculate_metrics sim_time (run_simulation draws) = some m ∧
      m.n_e_reduction = (1 - n_e (numSteps sim_time - 1) / N_E0) * 100 ∧
      m.blackout_time = sim_time - (clearCount (numSteps sim_time) : ℝ) * dt ∧
      m.guidance_clear_pct =
        (clearCount (numSteps sim_time) : ℝ) * dt / sim_time * 100 ∧
      (∀ j < numSteps sim_time, power j ≤ m.peak_power) ∧
      (∃ j < numSteps sim_time, m.peak_power = power j) ∧
      m.cep = CEP_TARGET := by
  simp only [calculate_metrics]
  rw [dif_pos h]
  refine ⟨_, rfl, rfl, ?_, ?_, ?_, ?_, rfl⟩
  · show sim_time - (∑ i ∈ Finset.range (numSteps sim_time),
        (run_simulation draws).guidance_clear i) * dt = _
    rw [show (run_simulation draws).guidance_clear = guidance_clear from rfl,
      sum_guidance_eq_clearCount]
  · show (∑ i ∈ Finset.range (numSteps sim_time),
        (run_simulation draws).guidance_clear i) * dt / sim_time * 100 = _
    rw [show (run_simulation draws).guidance_clear = guidance_clear from rfl,
      sum_guidance_eq_clearCount]
  · intro j hj
    exact Finset.le_sup' _ (Finset.mem_range.mpr hj)
  · obtain ⟨j, hj, he⟩ :=
      Finset.exists_mem_eq_sup' (Finset.nonempty_range_iff.mpr h.ne')
        (run_simulation draws).power
    exact ⟨j, Finset.mem_range.mp hj, he⟩

theorem calculate_metrics_spec_witness :
    ∃ m, calculate_metrics dt (run_simulation fun _ _ => 0) = some m ∧
      m.cep = CEP_TARGET := by
  obtain ⟨m, hm, -, -, -, -, -, hcep⟩ :=
    calculate_metrics_spec dt (fun _ _ => 0)
      (Nat.ceil_pos.mpr (by norm_num [dt]))
  exact ⟨m, hm, hcep⟩

/-- Claim C9 is refuted at `sim_time = 0`: the grid is empty, and
`calculate_metrics` fails (the Python code indexes `self.n_e[-1]` and takes
`self.power.max()` on empty arrays), so no metrics object is produced even
though `0 < dt`. -/
theorem empty_grid_metrics_cex :
    (0 : ℝ) < dt ∧ numSteps 0 = 0 ∧
    calculate_metrics 0 (run_simulation fun _ _ => 0) = none := by
  have h : numSteps 0 = 0 := by
    unfold numSteps
    rw [zero_div, Nat.ceil_zero]
  refine ⟨by norm_num [dt], h, ?_⟩
  simp [calculate_metrics, h]

/-- Claim C9 (amended): for every `sim_time < dt` the grid has at most one
sample; when additionally `0 < sim_time`, the grid has exactly one sample
and the engine produces a metrics object with no out-of-bounds access. -/
theorem small_sim_time_spec (sim_time : ℝ) (draws : ℕ → Fin 64 → ℝ)
    (h : sim_time < dt) :
    numSteps sim_time ≤ 1 ∧
    (0 < sim_time → numSteps sim_time = 1 ∧
      ∃ m, calculate_metrics sim_time (run_simulation draws) = some m) := by
  have hdt : (0 : ℝ) < dt := by norm_num [dt]
  have hle : sim_time / dt ≤ 1 := (div_le_one hdt).mpr h.le
  constructor
  · exact Nat.ceil_le.mpr (by exact_mod_cast hle)
  · intro hpos
    have h1 : numSteps sim_time = 1 := by
      unfold numSteps
      rw [Nat.ceil_eq_iff one_ne_zero]
      exact ⟨by simpa using div_pos hpos hdt, by simpa using hle⟩
    refine ⟨h1, ?_⟩
    simp only [calculate_metrics]
    rw [dif_pos (by rw [h1]; exact Nat.one_pos)]
    exact ⟨_, rfl⟩

theorem small_sim_time_spec_witness :
    numSteps 5e-5 = 1 ∧
    ∃ m, calculate_metrics 5e-5 (run_simulation fun _ _ => 0) = some m := by
  obtain ⟨-, h2⟩ :=
    small_sim_time_spec 5e-5 (fun _ _ => 0) (by norm_num [dt])
  exact h2 (by norm_num)

/-- Claim C10: two runs with the same `sim_time` and arbitrarily different
sensor draws produce identical `B_field`, `n_e`, `power`, `guidance_clear`
and `blackout` series and identical metrics; only `ai_command` can depend
on the draws. -/
theorem controller_noninterference (d1 d2 : ℕ → Fin 64 → ℝ) (sim_time : ℝ) :
    (run_simulation d1).B_field = (run_simulation d2).B_field ∧
    (run_simulation d1).n_e = (run_simulation d2).n_e ∧
    (run_simulation d1).power = (run_simulation d2).power ∧
    (run_simulation d1).guidance_clear = (run_simulation d2).guidance_clear ∧
    (run_simulation d1).blackout = (run_simulation d2).blackout ∧
    calculate_metrics sim_time (run_simulation d1) =
      calculate_metrics sim_time (run_simulation d2) :=
  ⟨rfl, rfl, rfl, rfl, rfl, rfl⟩

end

end PMAC
